import Mathlib

/-!
Verification of the Stompbox firmware core (LED animation engine and
OSC receive framing / dispatch state machine) against its specification.

The definitions below are shallow embeddings of the C++ sources
`StompboxLEDs.cpp` and `StompboxOSC.cpp`.  Machine bytes (`uint8_t`) are
modelled as `Nat` with an explicit `% 256` where the C code converts an
`int` to a byte; the 32-bit `unsigned long` millisecond clock is modelled
as `Nat` with an explicit `% 2 ^ 32`.  Hardware side effects (pixel
writes, `FastLED.show()`, `flashBuiltInLED()`, dispatch callbacks and
outbound diagnostic sends) are recorded in explicit result structures.
-/

/-! ## Constants from `StompboxLEDs.h` -/

def NUM_LEDS : Nat := 6

def V_LAMP_IDLE : Nat := 128

def V_FULL : Nat := 255

def V_OFF : Nat := 0

def V_DIM : Nat := 45

def H_VINTAGE_LAMP : Nat := 50

def S_VINTAGE_LAMP : Nat := 200

/-! ## LED driver: `glowChange` (StompboxLEDs.cpp lines 33-46)

```c
void glowChange(int led, byte hue, byte sat, byte val_from, byte val_to,
                int slowness, int change_step) {
  if (change_step == 0) {
    leds[led] = CHSV(hue, sat, val_to);
    FastLED.show();
    return;
  }
  for (int j = val_from; (change_step > 0) ? (j < val_to) : (j > val_to);
       j += change_step) {
    leds[led] = CHSV(hue, sat, j);
    FastLED.show();
    delay(slowness);
  }
}
```
-/

/-- Conversion of the C `int` loop variable `j` to the `uint8_t` value
channel of `CHSV` (C integer conversion: reduction mod 256). -/
def byteOf (j : Int) : Nat := (j.emod 256).toNat

/-- The sequence of values taken by the loop variable `j` of the `for`
loop of `glowChange`: starts at `j`, continues while `j < val_to` (when
`change_step > 0`) or `j > val_to` (when `change_step < 0`), stepping by
`change_step`.  `glowChange` only reaches the loop with a nonzero
`change_step` (the `change_step == 0` case returns early), so the
`change_step = 0` branch here is unreachable from `glowChange`. -/
def glowStep (j val_to change_step : Int) : List Int :=
  if h1 : 0 < change_step then
    if h2 : j < val_to then j :: glowStep (j + change_step) val_to change_step
    else []
  else if h3 : change_step < 0 then
    if h4 : val_to < j then j :: glowStep (j + change_step) val_to change_step
    else []
  else []
termination_by (if 0 < change_step then val_to - j else j - val_to).toNat
decreasing_by
  · simp only [if_pos h1]
    omega
  · simp only [if_neg h1]
    omega

/-- The observable effect of one `glowChange` call: the successive `v`
channel values written to the pixel (each write is followed by one
`FastLED.show()`), and the number of `FastLED.show()` hardware pushes. -/
structure GlowResult where
  writes : List Nat
  shows : Nat
deriving DecidableEq, Repr

/-- Shallow embedding of `glowChange`.  `led`, `hue`, `sat` and
`slowness` do not influence the sequence of value-channel writes and are
kept only to mirror the source signature. -/
def glowChange (led hue sat : Nat) (val_from val_to : Nat) (slowness : Nat)
    (change_step : Int) : GlowResult :=
  if change_step = 0 then
    { writes := [val_to], shows := 1 }
  else
    let js := glowStep (val_from : Int) (val_to : Int) change_step
    { writes := js.map byteOf, shows := js.length }

/-- `glowUp` (StompboxLEDs.cpp lines 49-51): forwards to `glowChange`. -/
def glowUp (led hue sat : Nat) (val_from val_to : Nat) (slowness : Nat)
    (change_step : Int) : GlowResult :=
  glowChange led hue sat val_from val_to slowness change_step

/-- `glowDown` (StompboxLEDs.cpp lines 54-56): forwards to `glowChange`. -/
def glowDown (led hue sat : Nat) (val_from val_to : Nat) (slowness : Nat)
    (change_step : Int) : GlowResult :=
  glowChange led hue sat val_from val_to slowness change_step

/-! ## Idle animation (StompboxLEDs.cpp lines 124-145) -/

/-- Modulus of the 32-bit `unsigned long` type (`time_ms`). -/
def UINT32_MOD : Nat := 2 ^ 32

/-- `millis()` reading at true elapsed time `t` ms: the Arduino
millisecond counter is a 32-bit unsigned value. -/
def millis (t : Nat) : Nat := t % UINT32_MOD

def time_between_sparkle_waves : Nat := 4000

/-- The `(led, value)` hardware writes of the sparkle ripple body of
`idleAnimation` (the `for (int i = 1; i < NUM_LEDS; i++)` loop of
glowUp / glowDown calls). -/
def sparkleRipple : List (Nat × Nat) :=
  (List.range' 1 (NUM_LEDS - 1)).flatMap fun i =>
    ((glowUp i H_VINTAGE_LAMP S_VINTAGE_LAMP V_LAMP_IDLE V_FULL 1 8).writes.map
      fun v => (i, v)) ++
    ((glowDown i H_VINTAGE_LAMP S_VINTAGE_LAMP V_FULL V_LAMP_IDLE 1 (-8)).writes.map
      fun v => (i, v))

/-- Shallow embedding of `idleAnimation`: `previous` is the stored static
timestamp (a 32-bit `millis()` value), `current` the `millis()` reading at
this call.  `elapsed = current - previous` is 32-bit unsigned subtraction.
Returns the new stored timestamp and the list of hardware pixel writes
performed (empty when the rate limiter returns early). -/
def idleAnimation (previous current : Nat) : Nat × List (Nat × Nat) :=
  let elapsed := (current + UINT32_MOD - previous % UINT32_MOD) % UINT32_MOD
  if elapsed < time_between_sparkle_waves then
    (previous, [])
  else
    (current, sparkleRipple)

example : glowChange 0 0 0 0 9 0 3 = { writes := [0, 3, 6], shows := 3 } := by
  simp [glowChange, glowStep, byteOf]
  decide

example : glowChange 0 0 0 7 7 0 0 = { writes := [7], shows := 1 } := by
  simp [glowChange]

/-! ## OSC receive framing state machine (StompboxOSC.cpp lines 30-134)

`listenForOSC` keeps three pieces of static state: the bundle
accumulator `bundleIN`, the message accumulator `messageIN` (modelled by
the lists of bytes `fill`ed into them) and the classification tag
`listeningFor`.  The OSC library's `hasError()` predicates on the
accumulated bytes are external collaborators and appear as function
parameters.  Observable effects (diagnostic `sendOSCString` calls,
`flashBuiltInLED()` calls and the dispatch callbacks
`dispatchBundleContents` / `dispatchMessage`) are recorded in an
`Effects` structure. -/

/-- `listening_status_e` from StompboxOSC.h. -/
inductive listening_status_e where
  | BUNDLE_OR_MESSAGE_START
  | BUNDLE
  | MESSAGE
deriving DecidableEq, Repr

open listening_status_e

/-- The static state of `listenForOSC` persisting across calls. -/
structure OSCState where
  bundleIN : List Nat
  messageIN : List Nat
  listeningFor : listening_status_e
deriving DecidableEq, Repr

/-- The state after `setupOSC` / static initialization: awaiting a start
byte, both accumulators empty. -/
def initOSCState : OSCState :=
  { bundleIN := [], messageIN := [], listeningFor := BUNDLE_OR_MESSAGE_START }

/-- Observable effects of one `listenForOSC` call. `diagSends` lists the
OSC addresses of outbound diagnostic `sendOSCString` calls, in order;
`flashes` counts `flashBuiltInLED()` calls; `bundleDispatches` and
`messageDispatches` list the accumulated contents handed to
`dispatchBundleContents` and `dispatchMessage` respectively. -/
structure Effects where
  diagSends : List String
  flashes : Nat
  bundleDispatches : List (List Nat)
  messageDispatches : List (List Nat)
deriving DecidableEq, Repr

/-- One iteration of the while-loop body of `listenForOSC`
(StompboxOSC.cpp lines 39-64): classify the byte when still awaiting a
start byte (byte 35 `'#'` starts a bundle, byte 47 `'/'` starts a
message, anything else triggers two diagnostic `sendOSCString` calls to
`"/foobar/error"`), then feed the byte to the live accumulator.
Returns the updated state and the diagnostic send addresses. -/
def processByte (s : OSCState) (data : Nat) : OSCState × List String :=
  let (listeningFor1, sends) :=
    if s.listeningFor = BUNDLE_OR_MESSAGE_START then
      if data = 35 then (BUNDLE, ([] : List String))
      else if data = 47 then (MESSAGE, ([] : List String))
      else (BUNDLE_OR_MESSAGE_START, ["/foobar/error", "/foobar/error"])
    else (s.listeningFor, ([] : List String))
  if listeningFor1 = BUNDLE then
    ({ s with bundleIN := s.bundleIN ++ [data], listeningFor := listeningFor1 }, sends)
  else if listeningFor1 = MESSAGE then
    ({ s with messageIN := s.messageIN ++ [data], listeningFor := listeningFor1 }, sends)
  else
    ({ s with listeningFor := listeningFor1 }, sends)

/-- The while loop of `listenForOSC` over the sequence of bytes read in
this call (the loop drains available bytes, stopping at end-of-packet). -/
def runBytes (s : OSCState) : List Nat → OSCState × List String
  | [] => (s, [])
  | d :: rest =>
    let (s1, sends1) := processByte s d
    let (s2, sends2) := runBytes s1 rest
    (s2, sends1 ++ sends2)

/-- The end-of-packet handling of `listenForOSC` (StompboxOSC.cpp lines
69-131).  `bundleHasError` is the OSC library's `hasError()` on the
bundle accumulator's contents.  Note the code never consults the message
accumulator's error state, and the detailed `/foobar/error` reporting in
the bundle-error branch is commented out in the source: only
`flashBuiltInLED()` remains there. -/
def endOfPacket (bundleHasError : List Nat → Bool) (s : OSCState) :
    OSCState × Effects :=
  if s.listeningFor = BUNDLE ∧ bundleHasError s.bundleIN then
    ({ s with bundleIN := [], listeningFor := BUNDLE_OR_MESSAGE_START },
     { diagSends := [], flashes := 1,
       bundleDispatches := [s.bundleIN], messageDispatches := [] })
  else if s.listeningFor = BUNDLE then
    ({ s with bundleIN := [], listeningFor := BUNDLE_OR_MESSAGE_START },
     { diagSends := [], flashes := 0,
       bundleDispatches := [s.bundleIN], messageDispatches := [] })
  else if s.listeningFor = MESSAGE then
    ({ s with messageIN := [], listeningFor := BUNDLE_OR_MESSAGE_START },
     { diagSends := [], flashes := 0,
       bundleDispatches := [], messageDispatches := [s.messageIN] })
  else
    (s, { diagSends := [], flashes := 0,
          bundleDispatches := [], messageDispatches := [] })

/-- Shallow embedding of one `listenForOSC` call.  `bytes` is the
sequence of bytes read by the while loop in this call and `eot` whether
`SLIPSerial.endofPacket()` signalled end-of-packet (when `eot` is false
the loop ran out of available bytes and the call returns, waiting for
more).  `messageHasError` models the OSC library's `hasError()` on the
message accumulator; the source never calls it, so it is unused — it is
kept in the signature to state decode-error claims about the message
side. -/
def listenForOSC (bundleHasError messageHasError : List Nat → Bool)
    (s : OSCState) (bytes : List Nat) (eot : Bool) : OSCState × Effects :=
  let (s1, sends) := runBytes s bytes
  if eot then
    let (s2, eff) := endOfPacket bundleHasError s1
    (s2, { eff with diagSends := sends ++ eff.diagSends })
  else
    (s1, { diagSends := sends, flashes := 0,
           bundleDispatches := [], messageDispatches := [] })

example :
    listenForOSC (fun _ => false) (fun _ => false) initOSCState [35, 1, 2] true =
      (initOSCState,
       { diagSends := [], flashes := 0,
         bundleDispatches := [[35, 1, 2]], messageDispatches := [] }) := by
  decide

example :
    listenForOSC (fun _ => false) (fun _ => false) initOSCState [33] false =
      (initOSCState,
       { diagSends := ["/foobar/error", "/foobar/error"], flashes := 0,
         bundleDispatches := [], messageDispatches := [] }) := by
  decide

/-! ## OSC send helpers (StompboxOSC.cpp lines 140-192)

`sendOSCMessage` transmits the message between SLIP begin/end packet
markers, empties it, records `last_OSC_send_time = millis()` and then
blocks in `delay(MINIMUM_TIME_BETWEEN_OSC_SENDS)`.  Time is modelled by
an explicit monotonic millisecond counter `now` (true elapsed time as a
`Nat`); `delay(d)` advances it by `d`.  Float payloads are carried as
their raw bit pattern, uninterpreted (no float arithmetic occurs). -/

def MINIMUM_TIME_BETWEEN_OSC_SENDS : Nat := 10

/-- One typed OSC argument, as added by `OSCMessage::add`. -/
inductive OSCArg where
  | floatArg (bits : Nat)
  | intArg (v : Int)
  | stringArg (v : String)
  | boolArg (v : Bool)
deriving DecidableEq, Repr

/-- An outbound OSC message: address plus arguments. -/
structure OSCMessage where
  address : String
  args : List OSCArg
deriving DecidableEq, Repr

/-- Observable outcome of one `sendOSCMessage` call entered at true time
`now`: the transmitted packet, the time of transmission, the updated
`last_OSC_send_time` global, and the time at which the call returns
(after the unconditional throttling `delay`). -/
structure SendResult where
  transmitted : OSCMessage
  transmitTime : Nat
  last_OSC_send_time : Nat
  returnTime : Nat
deriving DecidableEq, Repr

/-- Shallow embedding of `sendOSCMessage` (StompboxOSC.cpp lines
140-148): transmit now, stamp `last_OSC_send_time` with the current
`millis()` reading, then `delay(MINIMUM_TIME_BETWEEN_OSC_SENDS)`. -/
def sendOSCMessage (now : Nat) (msg : OSCMessage) : SendResult :=
  { transmitted := msg
    transmitTime := now
    last_OSC_send_time := millis now
    returnTime := now + MINIMUM_TIME_BETWEEN_OSC_SENDS }

def sendOSCFloat (now : Nat) (address : String) (valueBits : Nat) : SendResult :=
  sendOSCMessage now { address := address, args := [OSCArg.floatArg valueBits] }

def sendOSCInt (now : Nat) (address : String) (value : Int) : SendResult :=
  sendOSCMessage now { address := address, args := [OSCArg.intArg value] }

def sendOSCString (now : Nat) (address : String) (value : String) : SendResult :=
  sendOSCMessage now { address := address, args := [OSCArg.stringArg value] }

def sendOSCBool (now : Nat) (address : String) (value : Bool) : SendResult :=
  sendOSCMessage now { address := address, args := [OSCArg.boolArg value] }

def sendOSCTrigger (now : Nat) (address : String) : SendResult :=
  sendOSCMessage now { address := address, args := [] }

/-! ## Analysis of the `glowChange` loop -/

lemma glowStep_nil_pos {j val_to step : Int} (hstep : 0 < step) (h : val_to ≤ j) :
    glowStep j val_to step = [] := by
  rw [glowStep]
  simp [hstep, show ¬j < val_to by omega]

lemma glowStep_cons_pos {j val_to step : Int} (hstep : 0 < step) (h : j < val_to) :
    glowStep j val_to step = j :: glowStep (j + step) val_to step := by
  rw [glowStep]
  simp [hstep, h]

lemma glowStep_nil_neg {j val_to step : Int} (hstep : step < 0) (h : j ≤ val_to) :
    glowStep j val_to step = [] := by
  rw [glowStep]
  simp [show ¬0 < step by omega, hstep, show ¬val_to < j by omega]

lemma glowStep_cons_neg {j val_to step : Int} (hstep : step < 0) (h : val_to < j) :
    glowStep j val_to step = j :: glowStep (j + step) val_to step := by
  rw [glowStep]
  simp [show ¬0 < step by omega, hstep, h]

lemma glowStep_pos_spec (val_to step : Int) (hstep : 0 < step) :
    ∀ n, ∀ j : Int, (val_to - j).toNat ≤ n →
      (∀ x ∈ glowStep j val_to step, j ≤ x ∧ x < val_to) ∧
      List.Pairwise (· < ·) (glowStep j val_to step) ∧
      (j < val_to → ∃ L, (glowStep j val_to step).getLast? = some L ∧
        L < val_to ∧ val_to ≤ L + step ∧ ∃ k : ℕ, L = j + step * k) := by
  intro n
  induction n with
  | zero =>
    intro j hn
    have h : val_to ≤ j := by omega
    rw [glowStep_nil_pos hstep h]
    exact ⟨by simp, by simp, fun hj => absurd hj (by omega)⟩
  | succ n ih =>
    intro j hn
    by_cases hj : j < val_to
    · rw [glowStep_cons_pos hstep hj]
      obtain ⟨hmem, hpair, hlast⟩ := ih (j + step) (by omega)
      refine ⟨?_, ?_, fun _ => ?_⟩
      · intro x hx
        rcases List.mem_cons.mp hx with rfl | hx'
        · exact ⟨le_refl x, hj⟩
        · have := hmem x hx'
          constructor <;> omega
      · rw [List.pairwise_cons]
        refine ⟨fun b hb => ?_, hpair⟩
        have := hmem b hb
        omega
      · by_cases hj2 : j + step < val_to
        · obtain ⟨L, hL1, hL2, hL3, k, hk⟩ := hlast hj2
          cases hrest : glowStep (j + step) val_to step with
          | nil => rw [hrest] at hL1; simp at hL1
          | cons r rs =>
            rw [hrest] at hL1
            refine ⟨L, ?_, hL2, hL3, ⟨k + 1, ?_⟩⟩
            · rw [List.getLast?_cons_cons, hL1]
            · rw [hk]
              push_cast
              ring
        · rw [glowStep_nil_pos hstep (show val_to ≤ j + step by omega)]
          exact ⟨j, by simp, hj, by omega, 0, by simp⟩
    · rw [glowStep_nil_pos hstep (by omega)]
      exact ⟨by simp, by simp, fun h => absurd h hj⟩

lemma glowStep_neg_spec (val_to step : Int) (hstep : step < 0) :
    ∀ n, ∀ j : Int, (j - val_to).toNat ≤ n →
      (∀ x ∈ glowStep j val_to step, x ≤ j ∧ val_to < x) ∧
      List.Pairwise (· > ·) (glowStep j val_to step) ∧
      (val_to < j → ∃ L, (glowStep j val_to step).getLast? = some L ∧
        val_to < L ∧ L + step ≤ val_to ∧ ∃ k : ℕ, L = j + step * k) := by
  intro n
  induction n with
  | zero =>
    intro j hn
    have h : j ≤ val_to := by omega
    rw [glowStep_nil_neg hstep h]
    exact ⟨by simp, by simp, fun hj => absurd hj (by omega)⟩
  | succ n ih =>
    intro j hn
    by_cases hj : val_to < j
    · rw [glowStep_cons_neg hstep hj]
      obtain ⟨hmem, hpair, hlast⟩ := ih (j + step) (by omega)
      refine ⟨?_, ?_, fun _ => ?_⟩
      · intro x hx
        rcases List.mem_cons.mp hx with rfl | hx'
        · exact ⟨le_refl x, hj⟩
        · have := hmem x hx'
          constructor <;> omega
      · rw [List.pairwise_cons]
        refine ⟨fun b hb => ?_, hpair⟩
        have := hmem b hb
        simp only [gt_iff_lt]
        omega
      · by_cases hj2 : val_to < j + step
        · obtain ⟨L, hL1, hL2, hL3, k, hk⟩ := hlast hj2
          cases hrest : glowStep (j + step) val_to step with
          | nil => rw [hrest] at hL1; simp at hL1
          | cons r rs =>
            rw [hrest] at hL1
            refine ⟨L, ?_, hL2, hL3, ⟨k + 1, ?_⟩⟩
            · rw [List.getLast?_cons_cons, hL1]
            · rw [hk]
              push_cast
              ring
        · rw [glowStep_nil_neg hstep (show j + step ≤ val_to by omega)]
          exact ⟨j, by simp, hj, by omega, 0, by simp⟩
    · rw [glowStep_nil_neg hstep (by omega)]
      exact ⟨by simp, by simp, fun h => absurd h hj⟩

lemma byteOf_eq {j : Int} (h0 : 0 ≤ j) (h1 : j < 256) : byteOf j = j.toNat := by
  unfold byteOf
  rw [show j.emod 256 = j % 256 from rfl, Int.emod_eq_of_lt h0 h1]

/-- Byte-level consequences of the loop analysis for an ascending
`glowChange` call (`0 < change_step`), with byte-typed endpoints. -/
lemma glowChange_pos_spec (led hue sat val_from val_to slowness : Nat) (step : Int)
    (hstep : 0 < step) (hto : val_to ≤ 256) :
    (∀ w ∈ (glowChange led hue sat val_from val_to slowness step).writes,
      val_from ≤ w ∧ w < val_to) ∧
    List.Pairwise (· < ·) (glowChange led hue sat val_from val_to slowness step).writes ∧
    (glowChange led hue sat val_from val_to slowness step).shows =
      (glowChange led hue sat val_from val_to slowness step).writes.length ∧
    (val_from < val_to →
      ∃ L : Nat, (glowChange led hue sat val_from val_to slowness step).writes.getLast? = some L ∧
        (L : Int) < (val_to : Int) ∧ (val_to : Int) ≤ (L : Int) + step ∧
        ∃ k : ℕ, (L : Int) = (val_from : Int) + step * k) ∧
    (val_to ≤ val_from →
      (glowChange led hue sat val_from val_to slowness step).writes = [] ∧
      (glowChange led hue sat val_from val_to slowness step).shows = 0) := by
  have hne : step ≠ 0 := by omega
  obtain ⟨hmem, hpair, hlast⟩ :=
    glowStep_pos_spec (val_to : Int) step hstep ((val_to : Int) - (val_from : Int)).toNat
      (val_from : Int) (le_refl _)
  have hbyte : ∀ x ∈ glowStep (val_from : Int) (val_to : Int) step, byteOf x = x.toNat := by
    intro x hx
    obtain ⟨hx1, hx2⟩ := hmem x hx
    exact byteOf_eq (by omega) (by omega)
  simp only [glowChange, if_neg hne]
  refine ⟨?_, ?_, by simp, ?_, ?_⟩
  · intro w hw
    obtain ⟨x, hx, rfl⟩ := List.mem_map.mp hw
    obtain ⟨hx1, hx2⟩ := hmem x hx
    rw [hbyte x hx]
    omega
  · rw [List.pairwise_map]
    refine hpair.imp_of_mem ?_
    intro a b ha hb hab
    obtain ⟨ha1, ha2⟩ := hmem a ha
    obtain ⟨hb1, hb2⟩ := hmem b hb
    rw [hbyte a ha, hbyte b hb]
    omega
  · intro hlt
    obtain ⟨L, hL1, hL2, hL3, k, hk⟩ := hlast (by omega)
    have hLmem : L ∈ glowStep (val_from : Int) (val_to : Int) step :=
      List.mem_of_getLast?_eq_some hL1
    obtain ⟨hLa, hLb⟩ := hmem L hLmem
    refine ⟨L.toNat, ?_, by omega, by omega, k, by omega⟩
    rw [List.getLast?_map, hL1, Option.map_some', hbyte L hLmem]
  · intro hge
    rw [glowStep_nil_pos hstep (by omega)]
    exact ⟨rfl, rfl⟩

/-- Byte-level consequences of the loop analysis for a descending
`glowChange` call (`change_step < 0`), with byte-typed endpoints. -/
lemma glowChange_neg_spec (led hue sat val_from val_to slowness : Nat) (step : Int)
    (hstep : step < 0) (hfrom : val_from < 256) :
    (∀ w ∈ (glowChange led hue sat val_from val_to slowness step).writes,
      w ≤ val_from ∧ val_to < w) ∧
    List.Pairwise (· > ·) (glowChange led hue sat val_from val_to slowness step).writes ∧
    (glowChange led hue sat val_from val_to slowness step).shows =
      (glowChange led hue sat val_from val_to slowness step).writes.length ∧
    (val_to < val_from →
      ∃ L : Nat, (glowChange led hue sat val_from val_to slowness step).writes.getLast? = some L ∧
        (val_to : Int) < (L : Int) ∧ (L : Int) + step ≤ (val_to : Int) ∧
        ∃ k : ℕ, (L : Int) = (val_from : Int) + step * k) ∧
    (val_from ≤ val_to →
      (glowChange led hue sat val_from val_to slowness step).writes = [] ∧
      (glowChange led hue sat val_from val_to slowness step).shows = 0) := by
  have hne : step ≠ 0 := by omega
  obtain ⟨hmem, hpair, hlast⟩ :=
    glowStep_neg_spec (val_to : Int) step hstep ((val_from : Int) - (val_to : Int)).toNat
      (val_from : Int) (le_refl _)
  have hbyte : ∀ x ∈ glowStep (val_from : Int) (val_to : Int) step, byteOf x = x.toNat := by
    intro x hx
    obtain ⟨hx1, hx2⟩ := hmem x hx
    exact byteOf_eq (by omega) (by omega)
  simp only [glowChange, if_neg hne]
  refine ⟨?_, ?_, by simp, ?_, ?_⟩
  · intro w hw
    obtain ⟨x, hx, rfl⟩ := List.mem_map.mp hw
    obtain ⟨hx1, hx2⟩ := hmem x hx
    rw [hbyte x hx]
    omega
  · rw [List.pairwise_map]
    refine hpair.imp_of_mem ?_
    intro a b ha hb hab
    obtain ⟨ha1, ha2⟩ := hmem a ha
    obtain ⟨hb1, hb2⟩ := hmem b hb
    rw [hbyte a ha, hbyte b hb]
    simp only [gt_iff_lt] at hab ⊢
    omega
  · intro hlt
    obtain ⟨L, hL1, hL2, hL3, k, hk⟩ := hlast (by omega)
    have hLmem : L ∈ glowStep (val_from : Int) (val_to : Int) step :=
      List.mem_of_getLast?_eq_some hL1
    obtain ⟨hLa, hLb⟩ := hmem L hLmem
    refine ⟨L.toNat, ?_, by omega, by omega, k, by omega⟩
    rw [List.getLast?_map, hL1, Option.map_some', hbyte L hLmem]
  · intro hge
    rw [glowStep_nil_neg hstep (by omega)]
    exact ⟨rfl, rfl⟩

/-! ## Analysis of the framing state machine -/

lemma processByte_bundle (bIN mIN : List Nat) (d : Nat) :
    processByte ⟨bIN, mIN, BUNDLE⟩ d = (⟨bIN ++ [d], mIN, BUNDLE⟩, []) := by
  simp [processByte]

lemma processByte_message (bIN mIN : List Nat) (d : Nat) :
    processByte ⟨bIN, mIN, MESSAGE⟩ d = (⟨bIN, mIN ++ [d], MESSAGE⟩, []) := by
  simp [processByte]

lemma processByte_start_hash (bIN mIN : List Nat) :
    processByte ⟨bIN, mIN, BUNDLE_OR_MESSAGE_START⟩ 35 =
      (⟨bIN ++ [35], mIN, BUNDLE⟩, []) := by
  simp [processByte]

lemma processByte_start_slash (bIN mIN : List Nat) :
    processByte ⟨bIN, mIN, BUNDLE_OR_MESSAGE_START⟩ 47 =
      (⟨bIN, mIN ++ [47], MESSAGE⟩, []) := by
  simp [processByte]

lemma processByte_start_other (s : OSCState) (d : Nat)
    (hs : s.listeningFor = BUNDLE_OR_MESSAGE_START) (h35 : d ≠ 35) (h47 : d ≠ 47) :
    processByte s d = (s, ["/foobar/error", "/foobar/error"]) := by
  obtain ⟨bIN, mIN, lf⟩ := s
  simp only [OSCState.listeningFor] at hs
  subst hs
  simp [processByte, h35, h47]

lemma runBytes_bundle (bIN mIN : List Nat) (bytes : List Nat) :
    runBytes ⟨bIN, mIN, BUNDLE⟩ bytes = (⟨bIN ++ bytes, mIN, BUNDLE⟩, []) := by
  induction bytes generalizing bIN with
  | nil => simp [runBytes]
  | cons d rest ih =>
    simp [runBytes, processByte_bundle, ih]

lemma runBytes_message (bIN mIN : List Nat) (bytes : List Nat) :
    runBytes ⟨bIN, mIN, MESSAGE⟩ bytes = (⟨bIN, mIN ++ bytes, MESSAGE⟩, []) := by
  induction bytes generalizing mIN with
  | nil => simp [runBytes]
  | cons d rest ih =>
    simp [runBytes, processByte_message, ih]

lemma listen_bundle_packet (bErr mErr : List Nat → Bool) (body : List Nat) :
    listenForOSC bErr mErr initOSCState (35 :: body) true =
      (initOSCState,
       { diagSends := [], flashes := if bErr (35 :: body) then 1 else 0,
         bundleDispatches := [35 :: body], messageDispatches := [] }) := by
  have h1 : runBytes initOSCState (35 :: body) = (⟨35 :: body, [], BUNDLE⟩, []) := by
    simp [runBytes, initOSCState, processByte_start_hash, runBytes_bundle]
  simp only [listenForOSC, h1, if_pos]
  by_cases hb : bErr (35 :: body) <;>
    simp [endOfPacket, hb, initOSCState]

lemma listen_message_packet (bErr mErr : List Nat → Bool) (body : List Nat) :
    listenForOSC bErr mErr initOSCState (47 :: body) true =
      (initOSCState,
       { diagSends := [], flashes := 0,
         bundleDispatches := [], messageDispatches := [47 :: body] }) := by
  have h1 : runBytes initOSCState (47 :: body) = (⟨[], 47 :: body, MESSAGE⟩, []) := by
    simp [runBytes, initOSCState, processByte_start_slash, runBytes_message]
  simp only [listenForOSC, h1, if_pos]
  simp [endOfPacket, initOSCState]

lemma listen_bad_byte (bErr mErr : List Nat → Bool) (s : OSCState) (d : Nat) (eot : Bool)
    (hs : s.listeningFor = BUNDLE_OR_MESSAGE_START) (h35 : d ≠ 35) (h47 : d ≠ 47) :
    listenForOSC bErr mErr s [d] eot =
      (s, { diagSends := ["/foobar/error", "/foobar/error"], flashes := 0,
            bundleDispatches := [], messageDispatches := [] }) := by
  have h1 : runBytes s [d] = (s, ["/foobar/error", "/foobar/error"]) := by
    simp [runBytes, processByte_start_other s d hs h35 h47]
  cases eot with
  | false => simp [listenForOSC, h1]
  | true =>
    have h2 : endOfPacket bErr s =
        (s, { diagSends := [], flashes := 0,
              bundleDispatches := [], messageDispatches := [] }) := by
      simp [endOfPacket, hs]
    simp [listenForOSC, h1, h2]

/-- The cross-packet invariant of the Framing Session: when awaiting a
start byte both accumulators are empty, and while one accumulator is
live the other is empty. -/
def FramingInv (s : OSCState) : Prop :=
  (s.listeningFor = BUNDLE_OR_MESSAGE_START → s.bundleIN = [] ∧ s.messageIN = []) ∧
  (s.listeningFor = BUNDLE → s.messageIN = []) ∧
  (s.listeningFor = MESSAGE → s.bundleIN = [])

lemma framingInv_init : FramingInv initOSCState := by
  refine ⟨fun _ => ⟨rfl, rfl⟩, fun h => rfl, fun h => ?_⟩
  simp [initOSCState] at h

lemma processByte_inv (s : OSCState) (d : Nat) (h : FramingInv s) :
    FramingInv (processByte s d).1 := by
  obtain ⟨bIN, mIN, lf⟩ := s
  obtain ⟨h1, h2, h3⟩ := h
  cases lf with
  | BUNDLE_OR_MESSAGE_START =>
    obtain ⟨hb, hm⟩ := h1 rfl
    simp only [OSCState.bundleIN, OSCState.messageIN] at hb hm
    subst hb hm
    by_cases h35 : d = 35
    · subst h35
      rw [processByte_start_hash]
      exact ⟨fun h => by simp at h, fun _ => rfl, fun h => by simp at h⟩
    · by_cases h47 : d = 47
      · subst h47
        rw [processByte_start_slash]
        exact ⟨fun h => by simp at h, fun h => by simp at h, fun _ => rfl⟩
      · rw [processByte_start_other _ _ rfl h35 h47]
        exact ⟨fun _ => ⟨rfl, rfl⟩, fun h => by simp at h, fun h => by simp at h⟩
  | BUNDLE =>
    have hm := h2 rfl
    simp only [OSCState.messageIN] at hm
    subst hm
    rw [processByte_bundle]
    exact ⟨fun h => by simp at h, fun _ => rfl, fun h => by simp at h⟩
  | MESSAGE =>
    have hb := h3 rfl
    simp only [OSCState.bundleIN] at hb
    subst hb
    rw [processByte_message]
    exact ⟨fun h => by simp at h, fun h => by simp at h, fun _ => rfl⟩

lemma runBytes_inv (s : OSCState) (bytes : List Nat) (h : FramingInv s) :
    FramingInv (runBytes s bytes).1 := by
  induction bytes generalizing s with
  | nil => simpa [runBytes] using h
  | cons d rest ih =>
    have h1 := processByte_inv s d h
    simpa [runBytes] using ih (processByte s d).1 h1

lemma endOfPacket_reset (bErr : List Nat → Bool) (s : OSCState) (h : FramingInv s) :
    (endOfPacket bErr s).1 = initOSCState := by
  obtain ⟨bIN, mIN, lf⟩ := s
  obtain ⟨h1, h2, h3⟩ := h
  cases lf with
  | BUNDLE_OR_MESSAGE_START =>
    obtain ⟨hb, hm⟩ := h1 rfl
    simp only [OSCState.bundleIN, OSCState.messageIN] at hb hm
    subst hb hm
    simp [endOfPacket, initOSCState]
  | BUNDLE =>
    have hm := h2 rfl
    simp only [OSCState.messageIN] at hm
    subst hm
    by_cases hb : bErr bIN <;> simp [endOfPacket, hb, initOSCState]
  | MESSAGE =>
    have hb := h3 rfl
    simp only [OSCState.bundleIN] at hb
    subst hb
    simp [endOfPacket, initOSCState]

lemma endOfPacket_inv (bErr : List Nat → Bool) (s : OSCState) (h : FramingInv s) :
    FramingInv (endOfPacket bErr s).1 := by
  rw [endOfPacket_reset bErr s h]
  exact framingInv_init

lemma listenForOSC_inv_general (bErr mErr : List Nat → Bool) (s : OSCState)
    (bytes : List Nat) (h : FramingInv s) :
    (listenForOSC bErr mErr s bytes true).1 = initOSCState := by
  rcases hr : runBytes s bytes with ⟨s1, sends⟩
  have h1 : FramingInv s1 := by
    have := runBytes_inv s bytes h
    rw [hr] at this
    exact this
  rcases he : endOfPacket bErr s1 with ⟨s2, eff⟩
  have h2 : s2 = initOSCState := by
    have := endOfPacket_reset bErr s1 h1
    rw [he] at this
    exact this
  simp [listenForOSC, hr, he, h2]

/-! ## Claims about the OSC receive path -/

/-- Claim C1: for every inbound packet whose first byte is `'#'` followed
by a well-formed bundle body and an end-of-packet signal, `listenForOSC`
invokes `dispatchBundleContents` exactly once and `dispatchMessage` zero
times; symmetrically for a first byte `'/'` with a well-formed message
body, `dispatchMessage` is invoked exactly once and
`dispatchBundleContents` zero times. -/
theorem listenForOSC_dispatch_exactly_once :
    (∀ (bErr mErr : List Nat → Bool) (body : List Nat), bErr (35 :: body) = false →
      (listenForOSC bErr mErr initOSCState (35 :: body) true).2.bundleDispatches.length = 1 ∧
      (listenForOSC bErr mErr initOSCState (35 :: body) true).2.messageDispatches.length = 0) ∧
    (∀ (bErr mErr : List Nat → Bool) (body : List Nat), mErr (47 :: body) = false →
      (listenForOSC bErr mErr initOSCState (47 :: body) true).2.messageDispatches.length = 1 ∧
      (listenForOSC bErr mErr initOSCState (47 :: body) true).2.bundleDispatches.length = 0) := by
  constructor
  · intro bErr mErr body hb
    rw [listen_bundle_packet]
    simp
  · intro bErr mErr body hm
    rw [listen_message_packet]
    simp

/-- Witness for C1 at the concrete bundle packet `[35, 1, 2]` with an
error-free codec. -/
theorem listenForOSC_dispatch_exactly_once_witness :
    (fun _ => false : List Nat → Bool) (35 :: [1, 2]) = false ∧
    (listenForOSC (fun _ => false) (fun _ => false) initOSCState (35 :: [1, 2])
        true).2.bundleDispatches.length = 1 ∧
    (listenForOSC (fun _ => false) (fun _ => false) initOSCState (35 :: [1, 2])
        true).2.messageDispatches.length = 0 :=
  ⟨rfl, listenForOSC_dispatch_exactly_once.1 (fun _ => false) (fun _ => false) [1, 2] rfl⟩

/-- Counterexample to claim C2: with the message accumulator live and its
decode-error flag reporting an error at end-of-packet
(`messageHasError := fun _ => true`), `listenForOSC` performs no warning
flash — the code never consults the message accumulator's error state —
contradicting the claim's assertion that the flash also happens when the
live accumulator is the message accumulator. -/
theorem listenForOSC_message_error_no_flash_cex :
    (fun _ => true : List Nat → Bool) ((runBytes initOSCState [47, 1]).1.messageIN) = true ∧
    (listenForOSC (fun _ => false) (fun _ => true) initOSCState [47, 1] true).2.flashes = 0 ∧
    (listenForOSC (fun _ => false) (fun _ => true) initOSCState [47, 1]
        true).2.messageDispatches = [[47, 1]] := by
  decide

/-- Claim C2 as amended: at end-of-packet, a decode error is checked only
on the bundle accumulator — in that case `listenForOSC` flashes the
warning indicator once, still forwards the erroring accumulator's
contents to the dispatcher, then empties it and resets to
`AWAITING_START`.  A live message accumulator is dispatched, emptied and
the state reset without any error check and without a flash, whatever its
decode status. -/
theorem listenForOSC_error_recovery_amended :
    (∀ (bErr mErr : List Nat → Bool) (body : List Nat), bErr (35 :: body) = true →
      listenForOSC bErr mErr initOSCState (35 :: body) true =
        (initOSCState,
         { diagSends := [], flashes := 1,
           bundleDispatches := [35 :: body], messageDispatches := [] })) ∧
    (∀ (bErr mErr : List Nat → Bool) (body : List Nat),
      listenForOSC bErr mErr initOSCState (47 :: body) true =
        (initOSCState,
         { diagSends := [], flashes := 0,
           bundleDispatches := [], messageDispatches := [47 :: body] })) := by
  constructor
  · intro bErr mErr body hb
    rw [listen_bundle_packet, hb]
    simp
  · intro bErr mErr body
    exact listen_message_packet bErr mErr body

/-- Witness for the amended C2 at the concrete erroring bundle packet
`[35, 7]`. -/
theorem listenForOSC_error_recovery_amended_witness :
    (fun _ => true : List Nat → Bool) (35 :: [7]) = true ∧
    listenForOSC (fun _ => true) (fun _ => false) initOSCState (35 :: [7]) true =
      (initOSCState,
       { diagSends := [], flashes := 1,
         bundleDispatches := [35 :: [7]], messageDispatches := [] }) :=
  ⟨rfl, listenForOSC_error_recovery_amended.1 (fun _ => true) (fun _ => false) [7] rfl⟩

/-- Counterexample to claim C3: an unrecognized first byte (here `'!'`,
33) produces two diagnostic sends, not one — the code emits two
`sendOSCString("/foobar/error", ...)` calls (a fixed notice and a
formatted report). -/
theorem listenForOSC_bad_byte_two_sends_cex :
    (listenForOSC (fun _ => false) (fun _ => false) initOSCState [33]
        false).2.diagSends.length = 2 ∧
    ¬((listenForOSC (fun _ => false) (fun _ => false) initOSCState [33]
        false).2.diagSends.length = 1) := by
  decide

/-- Claim C3 as amended: for every byte received while the framing state
is `AWAITING_START` whose value is neither 35 (`'#'`) nor 47 (`'/'`),
`listenForOSC` produces two diagnostic sends (both to `/foobar/error`),
invokes no dispatch callback, feeds the offending byte to neither
accumulator, and leaves the state machine unchanged in `AWAITING_START`,
ready to classify the next byte. -/
theorem listenForOSC_bad_byte_amended (bErr mErr : List Nat → Bool) (s : OSCState)
    (d : Nat) (eot : Bool) (hs : s.listeningFor = BUNDLE_OR_MESSAGE_START)
    (h35 : d ≠ 35) (h47 : d ≠ 47) :
    listenForOSC bErr mErr s [d] eot =
      (s, { diagSends := ["/foobar/error", "/foobar/error"], flashes := 0,
            bundleDispatches := [], messageDispatches := [] }) :=
  listen_bad_byte bErr mErr s d eot hs h35 h47

/-- Witness for the amended C3 at the concrete byte 33 (`'!'`). -/
theorem listenForOSC_bad_byte_amended_witness :
    initOSCState.listeningFor = BUNDLE_OR_MESSAGE_START ∧ (33 : Nat) ≠ 35 ∧ (33 : Nat) ≠ 47 ∧
    listenForOSC (fun _ => false) (fun _ => false) initOSCState [33] false =
      (initOSCState,
       { diagSends := ["/foobar/error", "/foobar/error"], flashes := 0,
         bundleDispatches := [], messageDispatches := [] }) :=
  ⟨rfl, by decide, by decide,
    listenForOSC_bad_byte_amended (fun _ => false) (fun _ => false) initOSCState 33 false
      rfl (by decide) (by decide)⟩

/-- Claim C6: the Framing Session invariant (live/idle accumulator
emptiness) is preserved by every `listenForOSC` call, and after every
call that reaches end-of-packet the session equals its initial state:
classification `AWAITING_START` (`BUNDLE_OR_MESSAGE_START`) with both
accumulators empty. -/
theorem listenForOSC_reset_invariant :
    (∀ (bErr mErr : List Nat → Bool) (s : OSCState) (bytes : List Nat) (eot : Bool),
      FramingInv s → FramingInv (listenForOSC bErr mErr s bytes eot).1) ∧
    (∀ (bErr mErr : List Nat → Bool) (s : OSCState) (bytes : List Nat),
      FramingInv s → (listenForOSC bErr mErr s bytes true).1 = initOSCState) := by
  constructor
  · intro bErr mErr s bytes eot h
    cases eot with
    | true =>
      rw [listenForOSC_inv_general bErr mErr s bytes h]
      exact framingInv_init
    | false =>
      rcases hr : runBytes s bytes with ⟨s1, sends⟩
      have h1 : FramingInv s1 := by
        have := runBytes_inv s bytes h
        rw [hr] at this
        exact this
      simpa [listenForOSC, hr] using h1
  · exact listenForOSC_inv_general

/-- Witness for C6: a complete bundle packet from the initial state. -/
theorem listenForOSC_reset_invariant_witness :
    FramingInv initOSCState ∧
    (listenForOSC (fun _ => false) (fun _ => false) initOSCState [35, 1] true).1 =
      initOSCState :=
  ⟨framingInv_init,
    listenForOSC_reset_invariant.2 (fun _ => false) (fun _ => false) initOSCState [35, 1]
      framingInv_init⟩

/-- Counterexample to claim C9: an accumulator decode error (erroring
bundle packet `[35, 1]`) is handled through the warning flash alone — the
outbound `/foobar/error` diagnostics in that branch are commented out in
the source, so no `/foobar/error` message is sent. -/
theorem listenForOSC_decode_error_no_diag_cex :
    (fun _ => true : List Nat → Bool) ((runBytes initOSCState [35, 1]).1.bundleIN) = true ∧
    (listenForOSC (fun _ => true) (fun _ => false) initOSCState [35, 1] true).2.flashes = 1 ∧
    (listenForOSC (fun _ => true) (fun _ => false) initOSCState [35, 1]
        true).2.diagSends = [] := by
  decide

/-- Claim C9 as amended: the outbound diagnostic address `/foobar/error`
is used to report framing-classification protocol violations (two string
messages per offending byte); accumulator decode errors are reported only
by flashing the built-in LED, with no outbound `/foobar/error` message. -/
theorem foobar_error_reporting_amended :
    (∀ (bErr mErr : List Nat → Bool) (s : OSCState) (d : Nat) (eot : Bool),
      s.listeningFor = BUNDLE_OR_MESSAGE_START → d ≠ 35 → d ≠ 47 →
      (listenForOSC bErr mErr s [d] eot).2.diagSends =
        ["/foobar/error", "/foobar/error"]) ∧
    (∀ (bErr mErr : List Nat → Bool) (body : List Nat), bErr (35 :: body) = true →
      (listenForOSC bErr mErr initOSCState (35 :: body) true).2.diagSends = [] ∧
      (listenForOSC bErr mErr initOSCState (35 :: body) true).2.flashes = 1) := by
  constructor
  · intro bErr mErr s d eot hs h35 h47
    rw [listen_bad_byte bErr mErr s d eot hs h35 h47]
  · intro bErr mErr body hb
    rw [listen_bundle_packet, hb]
    simp

/-- Witness for the amended C9 at the concrete byte 33 and the concrete
erroring bundle packet `[35, 9]`. -/
theorem foobar_error_reporting_amended_witness :
    initOSCState.listeningFor = BUNDLE_OR_MESSAGE_START ∧
    (listenForOSC (fun _ => false) (fun _ => false) initOSCState [33] true).2.diagSends =
      ["/foobar/error", "/foobar/error"] ∧
    (listenForOSC (fun _ => true) (fun _ => false) initOSCState (35 :: [9])
        true).2.diagSends = [] :=
  ⟨rfl,
    foobar_error_reporting_amended.1 (fun _ => false) (fun _ => false) initOSCState 33 true
      rfl (by decide) (by decide),
    (foobar_error_reporting_amended.2 (fun _ => true) (fun _ => false) [9] rfl).1⟩

/-! ## Claims about the LED animation engine -/

/-- Claim C5: for every call to `glowChange` with `change_step` equal to
0, exactly one hardware push (`FastLED.show`) occurs and the resulting
pixel value equals `val_to` exactly, regardless of `val_from`. -/
theorem glowChange_zero_step (led hue sat val_from val_to slowness : Nat) :
    glowChange led hue sat val_from val_to slowness 0 =
      { writes := [val_to], shows := 1 } := by
  simp [glowChange]

/-- Counterexample to claim C4: for `glowChange` from 0 toward 9 with
step 3, the final written value is 6, yet 9 is reachable from 0 in steps
of 3 and does not overshoot 9 by more than `3 - 1`, so the final written
value is not the largest such value. -/
theorem glowChange_final_value_cex :
    (glowChange 0 0 0 0 9 0 3).writes.getLast? = some 6 ∧
    ¬ IsGreatest {v : Int | (∃ k : ℕ, v = 0 + 3 * k) ∧ v ≤ 9 + (3 - 1)}
      (((glowChange 0 0 0 0 9 0 3).writes.getLast?.getD 0 : Nat) : Int) := by
  have h : (glowChange 0 0 0 0 9 0 3).writes = [0, 3, 6] := by
    simp [glowChange, glowStep, byteOf]
    decide
  refine ⟨by rw [h]; rfl, ?_⟩
  rw [h]
  rintro ⟨-, hub⟩
  have h9 : (9 : Int) ∈ {v : Int | (∃ k : ℕ, v = 0 + 3 * k) ∧ v ≤ 9 + (3 - 1)} :=
    ⟨⟨3, by norm_num⟩, by norm_num⟩
  have := hub h9
  norm_num at this

/-- Claim C4 as amended: for every `glowChange` call with nonzero
`change_step` whose sign matches the sign of `val_to - val_from`, the
sequence of written values is strictly monotonic (increasing for a
positive step, decreasing for a negative one), the loop terminates (the
write sequence is a finite list by construction), and the final written
value is the largest (respectively smallest) value reachable from
`val_from` in steps of `change_step` that stops strictly short of
`val_to` — it is within `|change_step|` of `val_to` but never overshoots
or reaches it. -/
theorem glowChange_monotone_final_amended (led hue sat val_from val_to slowness : Nat)
    (step : Int) (hfrom : val_from < 256) (hto : val_to < 256) :
    (0 < step → val_from < val_to →
      List.Pairwise (· < ·) (glowChange led hue sat val_from val_to slowness step).writes ∧
      ∃ L : Nat,
        (glowChange led hue sat val_from val_to slowness step).writes.getLast? = some L ∧
        (L : Int) < (val_to : Int) ∧ (val_to : Int) ≤ (L : Int) + step ∧
        ∃ k : ℕ, (L : Int) = (val_from : Int) + step * k) ∧
    (step < 0 → val_to < val_from →
      List.Pairwise (· > ·) (glowChange led hue sat val_from val_to slowness step).writes ∧
      ∃ L : Nat,
        (glowChange led hue sat val_from val_to slowness step).writes.getLast? = some L ∧
        (val_to : Int) < (L : Int) ∧ (L : Int) + step ≤ (val_to : Int) ∧
        ∃ k : ℕ, (L : Int) = (val_from : Int) + step * k) := by
  constructor
  · intro hstep hlt
    obtain ⟨hmem, hpair, hlen, hlast, hnil⟩ :=
      glowChange_pos_spec led hue sat val_from val_to slowness step hstep (by omega)
    exact ⟨hpair, hlast hlt⟩
  · intro hstep hlt
    obtain ⟨hmem, hpair, hlen, hlast, hnil⟩ :=
      glowChange_neg_spec led hue sat val_from val_to slowness step hstep hfrom
    exact ⟨hpair, hlast hlt⟩

/-- Witness for the amended C4 at the concrete ascending call from 0
toward 9 with step 3 (final written value 6 = 0 + 3·2). -/
theorem glowChange_monotone_final_amended_witness :
    (0 : Nat) < 256 ∧ (9 : Nat) < 256 ∧
    (List.Pairwise (· < ·) (glowChange 0 0 0 0 9 0 3).writes ∧
      ∃ L : Nat, (glowChange 0 0 0 0 9 0 3).writes.getLast? = some L ∧
        (L : Int) < (9 : Int) ∧ (9 : Int) ≤ (L : Int) + 3 ∧
        ∃ k : ℕ, (L : Int) = (0 : Int) + 3 * k) :=
  ⟨by decide, by decide,
    (glowChange_monotone_final_amended 0 0 0 0 9 0 3 (by decide) (by decide)).1
      (by decide) (by decide)⟩

/-- Claim C10: for every `glowChange` call with nonzero `change_step`,
the value `val_to` itself is never written: every written value is
strictly below `val_to` for a positive step and strictly above it for a
negative step; and when `val_from` is already at or beyond `val_to` in
the direction of travel, the call performs zero pixel writes and zero
hardware pushes. -/
theorem glowChange_strict_undershoot (led hue sat val_from val_to slowness : Nat)
    (step : Int) (hfrom : val_from < 256) (hto : val_to < 256) :
    (0 < step →
      ∀ w ∈ (glowChange led hue sat val_from val_to slowness step).writes, w < val_to) ∧
    (step < 0 →
      ∀ w ∈ (glowChange led hue sat val_from val_to slowness step).writes, val_to < w) ∧
    (0 < step → val_to ≤ val_from →
      (glowChange led hue sat val_from val_to slowness step).writes = [] ∧
      (glowChange led hue sat val_from val_to slowness step).shows = 0) ∧
    (step < 0 → val_from ≤ val_to →
      (glowChange led hue sat val_from val_to slowness step).writes = [] ∧
      (glowChange led hue sat val_from val_to slowness step).shows = 0) := by
  refine ⟨fun hstep w hw => ?_, fun hstep w hw => ?_, fun hstep hge => ?_, fun hstep hge => ?_⟩
  · exact ((glowChange_pos_spec led hue sat val_from val_to slowness step hstep
      (by omega)).1 w hw).2
  · exact ((glowChange_neg_spec led hue sat val_from val_to slowness step hstep
      hfrom).1 w hw).2
  · exact (glowChange_pos_spec led hue sat val_from val_to slowness step hstep
      (by omega)).2.2.2.2 hge
  · exact (glowChange_neg_spec led hue sat val_from val_to slowness step hstep
      hfrom).2.2.2.2 hge

/-- Witness for C10: ascending call already at its target (from 7 toward
3 with step 2) performs no writes and no pushes; and each write of the
call from 0 toward 9 with step 3 stays strictly below 9. -/
theorem glowChange_strict_undershoot_witness :
    (7 : Nat) < 256 ∧ (3 : Nat) < 256 ∧
    ((glowChange 0 0 0 7 3 0 2).writes = [] ∧ (glowChange 0 0 0 7 3 0 2).shows = 0) ∧
    (∀ w ∈ (glowChange 0 0 0 0 9 0 3).writes, w < 9) :=
  ⟨by decide, by decide,
    (glowChange_strict_undershoot 0 0 0 7 3 0 2 (by decide) (by decide)).2.2.1
      (by decide) (by decide),
    (glowChange_strict_undershoot 0 0 0 0 9 0 3 (by decide) (by decide)).1 (by decide)⟩

/-! ## Claims about timing (idle animation and send spacing) -/

lemma idleAnimation_eq (previous current : Nat) :
    idleAnimation previous current =
      if (current + UINT32_MOD - previous % UINT32_MOD) % UINT32_MOD <
          time_between_sparkle_waves then
        (previous, [])
      else
        (current, sparkleRipple) := rfl

lemma sparkleRipple_ne_nil : sparkleRipple ≠ [] := by
  have h1 : glowStep (128 : Int) 255 8 = 128 :: glowStep 136 255 8 :=
    glowStep_cons_pos (by norm_num) (by norm_num)
  simp [sparkleRipple, NUM_LEDS, List.range', glowUp, glowChange, V_LAMP_IDLE, V_FULL,
    H_VINTAGE_LAMP, S_VINTAGE_LAMP, h1]

/-- Counterexample to claim C7: a call made exactly `2 ^ 32` ms after the
previous run — far more than 4000 ms of real elapsed time — is a no-op,
because the 32-bit `millis()` subtraction wraps to an elapsed value of 0.
So "at least 4000 ms have elapsed" does not by itself guarantee the full
sparkle ripple sequence. -/
theorem idleAnimation_wraparound_cex :
    4000 ≤ 2 ^ 32 - 0 ∧
    (idleAnimation (millis 0) (millis (2 ^ 32))).2 = [] ∧
    sparkleRipple ≠ [] := by
  refine ⟨by norm_num, ?_, sparkleRipple_ne_nil⟩
  rw [idleAnimation_eq]
  norm_num [millis, UINT32_MOD, time_between_sparkle_waves]

/-- Claim C7 as amended: for consecutive `idleAnimation` calls at true
times `p` and `c` (previous run recorded at `p`), a call strictly less
than 4000 ms after the previous run performs no hardware writes and
leaves the stored timestamp unchanged; and a call at least 4000 ms after
the previous run performs the full sparkle ripple sequence, provided the
elapsed time is less than `2 ^ 32` ms (one wrap period of the 32-bit
millisecond clock). -/
theorem idleAnimation_rate_limit_amended (p c : Nat) (hpc : p ≤ c) :
    (c - p < time_between_sparkle_waves →
      idleAnimation (millis p) (millis c) = (millis p, [])) ∧
    (time_between_sparkle_waves ≤ c - p → c - p < UINT32_MOD →
      idleAnimation (millis p) (millis c) = (millis c, sparkleRipple) ∧
      sparkleRipple ≠ []) := by
  constructor
  · intro hlt
    rw [idleAnimation_eq]
    rw [if_pos]
    simp only [millis, UINT32_MOD, time_between_sparkle_waves] at *
    omega
  · intro hge hwrap
    rw [idleAnimation_eq]
    rw [if_neg]
    · exact ⟨rfl, sparkleRipple_ne_nil⟩
    · simp only [millis, UINT32_MOD, time_between_sparkle_waves] at *
      omega

/-- Witness for the amended C7: previous run at 0 ms, call at 5000 ms. -/
theorem idleAnimation_rate_limit_amended_witness :
    (0 : Nat) ≤ 5000 ∧
    (idleAnimation (millis 0) (millis 5000) = (millis 5000, sparkleRipple) ∧
      sparkleRipple ≠ []) :=
  ⟨by decide,
    (idleAnimation_rate_limit_amended 0 5000 (by decide)).2 (by decide)
      (by norm_num [UINT32_MOD])⟩

/-- Claim C8: every send helper routes through `sendOSCMessage`, which
transmits and then unconditionally blocks for
`MINIMUM_TIME_BETWEEN_OSC_SENDS` (10 ms), so the call returns no earlier
than 10 ms after transmitting, any two consecutive sends are separated in
wall-clock time by at least that interval, and each send stamps
`last_OSC_send_time` with the current monotonic milliseconds. -/
theorem sendOSC_minimum_spacing :
    (∀ (now : Nat) (address : String) (v : Nat),
      sendOSCFloat now address v =
        sendOSCMessage now { address := address, args := [OSCArg.floatArg v] }) ∧
    (∀ (now : Nat) (address : String) (v : Int),
      sendOSCInt now address v =
        sendOSCMessage now { address := address, args := [OSCArg.intArg v] }) ∧
    (∀ (now : Nat) (address : String) (v : String),
      sendOSCString now address v =
        sendOSCMessage now { address := address, args := [OSCArg.stringArg v] }) ∧
    (∀ (now : Nat) (address : String) (v : Bool),
      sendOSCBool now address v =
        sendOSCMessage now { address := address, args := [OSCArg.boolArg v] }) ∧
    (∀ (now : Nat) (address : String),
      sendOSCTrigger now address =
        sendOSCMessage now { address := address, args := [] }) ∧
    (∀ (now : Nat) (msg : OSCMessage),
      (sendOSCMessage now msg).returnTime =
        (sendOSCMessage now msg).transmitTime + MINIMUM_TIME_BETWEEN_OSC_SENDS ∧
      (sendOSCMessage now msg).last_OSC_send_time = millis now) ∧
    (∀ (now1 now2 : Nat) (msg1 msg2 : OSCMessage),
      (sendOSCMessage now1 msg1).returnTime ≤ now2 →
      (sendOSCMessage now1 msg1).transmitTime + MINIMUM_TIME_BETWEEN_OSC_SENDS ≤
        (sendOSCMessage now2 msg2).transmitTime) := by
  refine ⟨fun _ _ _ => rfl, fun _ _ _ => rfl, fun _ _ _ => rfl, fun _ _ _ => rfl,
    fun _ _ => rfl, fun now msg => ⟨rfl, rfl⟩, fun now1 now2 msg1 msg2 h => ?_⟩
  simpa [sendOSCMessage] using h

/-- Witness for C8: two consecutive sends, the second entered 2 ms after
the first returns. -/
theorem sendOSC_minimum_spacing_witness :
    (sendOSCMessage 0 { address := "/a", args := [] }).returnTime ≤ 12 ∧
    (sendOSCMessage 0 { address := "/a", args := [] }).transmitTime +
        MINIMUM_TIME_BETWEEN_OSC_SENDS ≤
      (sendOSCMessage 12 { address := "/b", args := [] }).transmitTime :=
  ⟨by decide,
    sendOSC_minimum_spacing.2.2.2.2.2.2 0 12
      { address := "/a", args := [] } { address := "/b", args := [] } (by decide)⟩
